import Mathlib

/-! Verification development for the regularized optimal-transport domain-adaptation
solvers of `ot/da.py`: the majorize-minimize Lp-L1 solver `sinkhorn_lpl1_mm`, the
L1-L2 group-lasso solver `sinkhorn_l1l2_gl`, and the joint coupling/mapping
estimators `joint_OT_mapping_linear` / `joint_OT_mapping_kernel`.

Modelling conventions:
- numpy arrays of floats are modelled as total functions into `ℝ`
  (`Mat m n := Fin m → Fin n → ℝ`); shapes are carried by the types;
- the external collaborators consumed by this module — the entropic solver
  `sinkhorn`, the exact solver `emd`, the conditional-gradient engines `cg` and
  `gcg` imported from `ot.optim`, the kernel constructor `ot.utils.kernel` and
  the linear-system solver `np.linalg.solve` — are abstract function parameters;
- the calls the joint estimators and `sinkhorn_l1l2_gl` make into the
  conditional-gradient engines are reified as `InnerSolverCall` values recording
  which engine is invoked and with which arguments, and the solvers are run by
  feeding those call records to an abstract interpreter, so the identity of the
  engine and the exact arguments passed are part of the model;
- a Python function whose control flow can reach its `return` with a local
  variable unbound (as `sinkhorn_lpl1_mm` does when its loop body never runs)
  returns an `Option`, with `none` standing for the `UnboundLocalError`. -/

set_option linter.unusedVariables false

/-- Dense real matrix of shape (m, n); the model of a 2-d numpy float array. -/
def Mat (m n : ℕ) : Type := Fin m → Fin n → ℝ

/-- Matrix product, as in numpy `A.dot(B)`. -/
noncomputable def matMul {m n k : ℕ} (A : Mat m n) (B : Mat n k) : Mat m k :=
  fun i j => ∑ t, A i t * B t j

/-- Matrix transpose, numpy `A.T`. -/
def matT {m n : ℕ} (A : Mat m n) : Mat n m := fun i j => A j i

/-- Sum of squared entries, numpy `np.sum(A**2)`. -/
noncomputable def sumSq {m n : ℕ} (A : Mat m n) : ℝ := ∑ i, ∑ j, (A i j) ^ 2

/-- Entrywise product summed, numpy `np.sum(A*B)`. -/
noncomputable def sumMulM {m n : ℕ} (A B : Mat m n) : ℝ := ∑ i, ∑ j, A i j * B i j

/-- Identity matrix, numpy `np.eye(n)`. -/
noncomputable def eyeM (n : ℕ) : Mat n n := fun i j => if i = j then 1 else 0

/-- Uniform weight vector, the external collaborator `ot.utils.unif`:
`np.ones(n)/n`. -/
noncomputable def unif (n : ℕ) : Fin n → ℝ := fun _ => 1 / n

/-- Squared-euclidean cost matrix, the external collaborator `ot.utils.dist`
with its default metric: entry (i,j) is the squared distance between row i of X
and row j of Y. -/
noncomputable def distM {m n d : ℕ} (X : Mat m d) (Y : Mat n d) : Mat m n :=
  fun i j => ∑ k, (X i k - Y j k) ^ 2

/-- Type of the external entropic subsolver `ot.bregman.sinkhorn`, as called by
`sinkhorn_lpl1_mm`: arguments (a, b, M, reg, numItermax, stopThr). -/
def SinkhornSolver (ns nt : ℕ) : Type :=
  (Fin ns → ℝ) → (Fin nt → ℝ) → Mat ns nt → ℝ → ℕ → ℝ → Mat ns nt

/-- Type of the external exact subsolver `ot.lp.emd`: arguments (a, b, M). -/
def EmdSolver (ns nt : ℕ) : Type :=
  (Fin ns → ℝ) → (Fin nt → ℝ) → Mat ns nt → Mat ns nt

/-- The list of distinct source-label values, modelling `np.unique(labels_a)`
(whose result is the sorted distinct labels; only membership and the induced
row partition matter here, so first-occurrence order is used). -/
def lstlab {ns : ℕ} (labels_a : Fin ns → ℤ) : List ℤ :=
  ((List.finRange ns).map labels_a).dedup

/-- The constant `p = 0.5` fixed at the top of `sinkhorn_lpl1_mm`. -/
noncomputable def lpl1_p : ℝ := 0.5

/-- The constant `epsilon = 1e-3` fixed at the top of `sinkhorn_lpl1_mm`. -/
noncomputable def lpl1_epsilon : ℝ := 1e-3

/-- Per-class column mass `np.sum(transp[indices_labels[i]], axis=0)`: the sum of
the coupling over the rows whose label is `c`, at column `j`. -/
noncomputable def classMass {ns nt : ℕ} (labels_a : Fin ns → ℤ) (c : ℤ)
    (transp : Mat ns nt) (j : Fin nt) : ℝ :=
  ∑ r, if labels_a r = c then transp r j else 0

/-- Fold writing, for each class `c` of the list in turn, the per-class value
`v c j` onto every row of class `c` (the row slice assignment
`W[indices_labels[i]] = majs` repeated over the classes). -/
noncomputable def classFoldW {ns nt : ℕ} (labels_a : Fin ns → ℤ)
    (v : ℤ → Fin nt → ℝ) (l : List ℤ) (W0 : Mat ns nt) : Mat ns nt :=
  l.foldl (fun W c => fun r j => if labels_a r = c then v c j else W r j) W0

/-- The weight-matrix recomputation at the end of each outer iteration of
`sinkhorn_lpl1_mm`: starting from `W = np.ones(M.shape)`, for each class the
per-column class mass is pushed through the majorizer `p * (mass + eps)**(p-1)`
and broadcast onto every row of that class. -/
noncomputable def lpl1_W {ns nt : ℕ} (labels_a : Fin ns → ℤ)
    (transp : Mat ns nt) : Mat ns nt :=
  classFoldW labels_a
    (fun c j => lpl1_p * (classMass labels_a c transp j + lpl1_epsilon) ^ (lpl1_p - 1))
    (lstlab labels_a) (fun _ _ => 1)

/-- One outer iteration of `sinkhorn_lpl1_mm`: form `Mreg = M + eta * W`, call
the Sinkhorn subsolver on it, then recompute `W` from the returned coupling.
The state is the pair (W, last coupling); the coupling starts out unassigned
(`none`), exactly as the Python local `transp` is unbound before the first
iteration. -/
noncomputable def lpl1Iter {ns nt : ℕ} (sinkhorn : SinkhornSolver ns nt)
    (a : Fin ns → ℝ) (labels_a : Fin ns → ℤ) (b : Fin nt → ℝ) (M : Mat ns nt)
    (reg eta : ℝ) (numInnerItermax : ℕ) (stopInnerThr : ℝ) :
    Mat ns nt × Option (Mat ns nt) → Mat ns nt × Option (Mat ns nt) :=
  fun s =>
    let Mreg : Mat ns nt := fun i j => M i j + eta * s.1 i j
    let transp := sinkhorn a b Mreg reg numInnerItermax stopInnerThr
    (lpl1_W labels_a transp, some transp)

/-- The state of `sinkhorn_lpl1_mm` after `n` outer iterations, starting from
`W = np.zeros(M.shape)` and an unassigned coupling. -/
noncomputable def lpl1Trace {ns nt : ℕ} (sinkhorn : SinkhornSolver ns nt)
    (a : Fin ns → ℝ) (labels_a : Fin ns → ℤ) (b : Fin nt → ℝ) (M : Mat ns nt)
    (reg eta : ℝ) (numInnerItermax : ℕ) (stopInnerThr : ℝ) (n : ℕ) :
    Mat ns nt × Option (Mat ns nt) :=
  (lpl1Iter sinkhorn a labels_a b M reg eta numInnerItermax stopInnerThr)^[n]
    ((fun _ _ => 0), none)

/-- The solver `sinkhorn_lpl1_mm(a, labels_a, b, M, reg, eta, numItermax,
numInnerItermax, stopInnerThr, verbose, log)`.  The outer loop
`for cpt in range(numItermax)` runs `max(numItermax, 0)` times and the function
then returns the local `transp`; `none` models the `UnboundLocalError` raised at
the `return` when the body never ran.  The `verbose` and `log` parameters are
accepted and ignored by the source (no log dictionary is ever built or
returned). -/
noncomputable def sinkhorn_lpl1_mm {ns nt : ℕ} (sinkhorn : SinkhornSolver ns nt)
    (a : Fin ns → ℝ) (labels_a : Fin ns → ℤ) (b : Fin nt → ℝ) (M : Mat ns nt)
    (reg eta : ℝ) (numItermax : ℤ) (numInnerItermax : ℕ) (stopInnerThr : ℝ)
    (verbose log : Bool) : Option (Mat ns nt) :=
  (lpl1Trace sinkhorn a labels_a b M reg eta numInnerItermax stopInnerThr
    numItermax.toNat).2

/-- Arguments of a call into the plain conditional-gradient engine `ot.optim.cg`,
in the order of its positional/keyword parameters
`cg(a, b, M, reg, f, df, G0, numItermax, stopThr)`; `cg` takes one regularization
weight `reg`, applied to the penalty `f`, and no entropic-weight argument. -/
structure CgCall (ns nt : ℕ) where
  a : Fin ns → ℝ
  b : Fin nt → ℝ
  M : Mat ns nt
  reg : ℝ
  f : Mat ns nt → ℝ
  df : Mat ns nt → Mat ns nt
  G0 : Mat ns nt
  numItermax : ℕ
  stopThr : ℝ

/-- Arguments of a call into the generalized conditional-gradient engine
`ot.optim.gcg` (the GCG Engine of spec section 4.1), in the order
`gcg(a, b, M, reg, eta, f, df, G0, numItermax, numInnerItermax, stopThr,
verbose, log)`: entropic weight `reg` and penalty weight `eta`. -/
structure GcgCall (ns nt : ℕ) where
  a : Fin ns → ℝ
  b : Fin nt → ℝ
  M : Mat ns nt
  reg : ℝ
  eta : ℝ
  f : Mat ns nt → ℝ
  df : Mat ns nt → Mat ns nt
  G0 : Option (Mat ns nt)
  numItermax : ℤ
  numInnerItermax : ℕ
  stopThr : ℝ
  verbose : Bool
  log : Bool

/-- A reified call into one of the two conditional-gradient engines imported
from `ot.optim`: `cg` (linearized subproblems solved by the exact `emd`
subsolver, single penalty weight, no entropic term) or `gcg` (the
entropic-regularized engine whose linearized subproblems are solved by the
Sinkhorn subsolver). -/
inductive InnerSolverCall (ns nt : ℕ) where
  | cg (c : CgCall ns nt)
  | gcg (c : GcgCall ns nt)

/-- Whether a reified engine call targets the GCG Engine `ot.optim.gcg`. -/
def InnerSolverCall.isGcg {ns nt : ℕ} : InnerSolverCall ns nt → Bool
  | .cg _ => false
  | .gcg _ => true

/-- Euclidean norm of the class-restricted column block
`np.linalg.norm(G[labels_a == lab, i])`. -/
noncomputable def blockNorm {ns nt : ℕ} (labels_a : Fin ns → ℤ) (lab : ℤ)
    (G : Mat ns nt) (i : Fin nt) : ℝ :=
  Real.sqrt (∑ r, if labels_a r = lab then (G r i) ^ 2 else 0)

/-- The group-lasso penalty `f` defined inside `sinkhorn_l1l2_gl`: iterate over
the target columns and, within each, over the distinct labels, accumulating the
Euclidean norm of each class-restricted column block. -/
noncomputable def l1l2_f {ns nt : ℕ} (labels_a : Fin ns → ℤ) (G : Mat ns nt) : ℝ :=
  ((List.finRange nt).map (fun i =>
    ((lstlab labels_a).map (fun lab => blockNorm labels_a lab G i)).sum)).sum

/-- The inner loop of `df` in `sinkhorn_l1l2_gl` for a fixed column `i`: for each
label in turn, if the block norm `n` is nonzero (`if n:`), overwrite the block
`W[labels_a == lab, i]` with `temp / n`; otherwise leave `W` unchanged. -/
noncomputable def l1l2_dfInner {ns nt : ℕ} (labels_a : Fin ns → ℤ)
    (G : Mat ns nt) (i : Fin nt) (l : List ℤ) (W0 : Mat ns nt) : Mat ns nt :=
  l.foldl (fun W lab =>
    if blockNorm labels_a lab G i = 0 then W
    else fun r j => if labels_a r = lab ∧ j = i
      then G r i / blockNorm labels_a lab G i else W r j) W0

/-- The gradient `df` defined inside `sinkhorn_l1l2_gl`: starting from
`W = np.zeros(G.shape)`, run the per-column block-normalization loop over every
target column. -/
noncomputable def l1l2_df {ns nt : ℕ} (labels_a : Fin ns → ℤ)
    (G : Mat ns nt) : Mat ns nt :=
  (List.finRange nt).foldl (fun W i => l1l2_dfInner labels_a G i (lstlab labels_a) W)
    (fun _ _ => 0)

/-- The engine call issued by `sinkhorn_l1l2_gl`: it hands the whole optimization
to `gcg(a, b, M, reg, eta, f, df, G0=None, numItermax=numItermax,
numInnerItermax=numInnerItermax, stopThr=stopInnerThr, verbose=verbose,
log=log)` with the group-lasso `f` and `df` above. -/
noncomputable def sinkhorn_l1l2_gl_call {ns nt : ℕ} (a : Fin ns → ℝ)
    (labels_a : Fin ns → ℤ) (b : Fin nt → ℝ) (M : Mat ns nt) (reg eta : ℝ)
    (numItermax : ℤ) (numInnerItermax : ℕ) (stopInnerThr : ℝ)
    (verbose log : Bool) : InnerSolverCall ns nt :=
  .gcg ⟨a, b, M, reg, eta, l1l2_f labels_a, l1l2_df labels_a, none,
    numItermax, numInnerItermax, stopInnerThr, verbose, log⟩

/-- The solver `sinkhorn_l1l2_gl`: its body builds `f`/`df` and returns the
result of the single `gcg` call; `gcgEngine` is the abstract engine (repository
code outside this module) interpreting the reified call. -/
noncomputable def sinkhorn_l1l2_gl {ns nt : ℕ} {α : Type}
    (gcgEngine : InnerSolverCall ns nt → α) (a : Fin ns → ℝ)
    (labels_a : Fin ns → ℤ) (b : Fin nt → ℝ) (M : Mat ns nt) (reg eta : ℝ)
    (numItermax : ℤ) (numInnerItermax : ℕ) (stopInnerThr : ℝ)
    (verbose log : Bool) : α :=
  gcgEngine (sinkhorn_l1l2_gl_call a labels_a b M reg eta numItermax
    numInnerItermax stopInnerThr verbose log)

/-- The engine call issued by the `solve_G` inner function shared (modulo the
feature matrix) by `joint_OT_mapping_linear` and `joint_OT_mapping_kernel`:
`cg(a, b, M, 1.0 / mu, f, df, G0=G0, numItermax=numInnerItermax,
stopThr=stopInnerThr)` where `xsi = FX.dot(L)` (`FX` is `xs1` in the linear
case and `K1` in the kernel case), `f(G) = np.sum((xsi - ns * G.dot(xt))**2)`
and `df(G) = -2 * ns * (xsi - ns * G.dot(xt)).dot(xt.T)`. -/
noncomputable def jointSolveGCall {ns nt d dp : ℕ} (FX : Mat ns dp)
    (xt : Mat nt d) (M : Mat ns nt) (mu : ℝ) (numInnerItermax : ℕ)
    (stopInnerThr : ℝ) (L : Mat dp d) (G0 : Mat ns nt) : InnerSolverCall ns nt :=
  let xsi := matMul FX L
  .cg ⟨unif ns, unif nt, M, 1.0 / mu,
    fun G => ∑ i, ∑ k, (xsi i k - (ns : ℝ) * matMul G xt i k) ^ 2,
    fun G => fun i j =>
      -2 * (ns : ℝ) *
        matMul (fun i2 k => xsi i2 k - (ns : ℝ) * matMul G xt i2 k) (matT xt) i j,
    G0, numInnerItermax, stopInnerThr⟩

/-- State of the block-coordinate-descent loop shared by the two joint mapping
estimators: the coupling `G`, the mapping `L`, the last loss `vcur` (the tail of
the Python list `vloss`), the earlier losses `vhist` (most recent first), the
iteration counter `it` and the `loop` flag. -/
structure BCDState (ns nt dp d : ℕ) where
  G : Mat ns nt
  L : Mat dp d
  vcur : ℝ
  vhist : List ℝ
  it : ℕ
  loop : Bool

/-- The loop-exit decision evaluated at the tail of every BCD iteration: the
flag is cleared when `it >= numItermax` or when
`abs(vloss[-1] - vloss[-2]) / abs(vloss[-2]) < stopThr`.  The relative-decrease
quotient is formed unconditionally; there is no branch on `vprev = 0` (real
division is total, with `x / 0 = 0`, standing for the unguarded float
division). -/
noncomputable def bcdStopDecision (numItermax : ℤ) (it : ℕ) (stopThr vprev vcur : ℝ) :
    Bool :=
  decide (numItermax ≤ (it : ℤ)) || decide (|vcur - vprev| / |vprev| < stopThr)

/-- One iteration of the BCD `while loop:` body: increment `it`, update `G` by
the conditional-gradient call `solve_G(L, G)`, refit `L = solve_L(G)`, append
the new loss, and clear the loop flag per `bcdStopDecision`.  When the flag is
already clear the state is unchanged (the loop has exited). -/
noncomputable def bcdStep {ns nt dp d : ℕ}
    (runInner : InnerSolverCall ns nt → Mat ns nt)
    (solve_L : Mat ns nt → Mat dp d) (lossF : Mat dp d → Mat ns nt → ℝ)
    (FX : Mat ns dp) (xt : Mat nt d) (M : Mat ns nt) (mu : ℝ)
    (numInnerItermax : ℕ) (stopInnerThr : ℝ) (numItermax : ℤ) (stopThr : ℝ)
    (s : BCDState ns nt dp d) : BCDState ns nt dp d :=
  if s.loop then
    let G := runInner (jointSolveGCall FX xt M mu numInnerItermax stopInnerThr s.L s.G)
    let L := solve_L G
    let v := lossF L G
    ⟨G, L, v, s.vcur :: s.vhist, s.it + 1,
      !(bcdStopDecision numItermax (s.it + 1) stopThr s.vcur v)⟩
  else s

/-- The BCD state before the `while` loop: `G` from the exact subsolver, one
closed-form solve `L = solve_L(G)`, the initial loss recorded, `it = 0`, and
`loop = 1 if numItermax > 0 else 0`. -/
noncomputable def bcdInit {ns nt dp d : ℕ} (G0 : Mat ns nt)
    (solve_L : Mat ns nt → Mat dp d) (lossF : Mat dp d → Mat ns nt → ℝ)
    (numItermax : ℤ) : BCDState ns nt dp d :=
  let L := solve_L G0
  ⟨G0, L, lossF L G0, [], 0, decide (0 < numItermax)⟩

/-- The final BCD state: the loop body can run at most `numItermax` times (the
counter check clears the flag at `it = numItermax`), so iterating the step
`max(numItermax, 0)` times reaches the state at loop exit. -/
noncomputable def bcdRun {ns nt dp d : ℕ}
    (runInner : InnerSolverCall ns nt → Mat ns nt)
    (solve_L : Mat ns nt → Mat dp d) (lossF : Mat dp d → Mat ns nt → ℝ)
    (FX : Mat ns dp) (xt : Mat nt d) (M : Mat ns nt) (mu : ℝ)
    (numInnerItermax : ℕ) (stopInnerThr : ℝ) (numItermax : ℤ) (stopThr : ℝ)
    (G0 : Mat ns nt) : BCDState ns nt dp d :=
  (bcdStep runInner solve_L lossF FX xt M mu numInnerItermax stopInnerThr
    numItermax stopThr)^[numItermax.toNat]
    (bcdInit G0 solve_L lossF numItermax)

/-- The log dictionary of the joint estimators: initialized to `{'err': []}`,
with the loss trace stored under `'loss'` before returning. -/
structure JointLog where
  err : List ℝ
  loss : List ℝ

/-- Return value of a joint mapping estimator: `(G, L)` or `(G, L, log)`. -/
inductive JointResult (ns nt dp d : ℕ) where
  | plain (G : Mat ns nt) (L : Mat dp d)
  | withLog (G : Mat ns nt) (L : Mat dp d) (lg : JointLog)

/-- The `return` statement of the joint estimators: `(G, L, log)` when `log`
was requested, else `(G, L)`; the loss trace is `vloss` in append order. -/
noncomputable def bcdOutput {ns nt dp d : ℕ} (s : BCDState ns nt dp d)
    (log : Bool) : JointResult ns nt dp d :=
  if log then .withLog s.G s.L ⟨[], (s.vcur :: s.vhist).reverse⟩
  else .plain s.G s.L

/-- The cost matrix of the joint estimators: `M = dist(xs, xt) * ns`. -/
noncomputable def jointCost {ns nt d : ℕ} (xs : Mat ns d) (xt : Mat nt d) :
    Mat ns nt :=
  fun i j => distM xs xt i j * (ns : ℝ)

/-- The feature matrix of the bias branches: `np.hstack((xs, np.ones((ns, 1))))`. -/
noncomputable def hstackOnes {ns d : ℕ} (xs : Mat ns d) : Mat ns (d + 1) :=
  fun i j => if h : (j : ℕ) < d then xs i ⟨j, h⟩ else 1

/-- The modified identity of the linear bias branch: `I = np.eye(d+1); I[-1] = 0`
(last row zeroed, so the bias row is excluded from the regularizer). -/
noncomputable def eyeLastRowZero (d : ℕ) : Mat (d + 1) (d + 1) :=
  fun i j => if (i : ℕ) = (j : ℕ) ∧ (i : ℕ) ≠ d then 1 else 0

/-- The matrix `I0 = I[:, :-1]` of the linear bias branch: the modified identity
with its last column dropped. -/
noncomputable def eyeDropLastCol (d : ℕ) : Mat (d + 1) d :=
  fun i j => eyeLastRowZero d i ⟨(j : ℕ), Nat.lt_succ_of_lt j.isLt⟩

/-- The row selection `sel(x) = x[:-1, :]` of the linear bias branch. -/
noncomputable def selDropLastRow {d dd : ℕ} (X : Mat (d + 1) dd) : Mat d dd :=
  fun i j => X i.castSucc j

/-- Type of the abstract external linear-system solver `np.linalg.solve`,
polymorphic in the system size. -/
def LinSolver (d : ℕ) : Type := (k : ℕ) → Mat k k → Mat k d → Mat k d

/-- `solve_L` of `joint_OT_mapping_linear` without bias: solve
`(xs1.T.dot(xs1) + eta * I) L = xs1.T.dot(ns * G.dot(xt)) + eta * I0` with
`xs1 = xs` and `I0 = I = np.eye(d)`. -/
noncomputable def jointLin_solve_L_nobias {ns nt d : ℕ} (solveLin : LinSolver d)
    (xs : Mat ns d) (xt : Mat nt d) (eta : ℝ) (G : Mat ns nt) : Mat d d :=
  let xst : Mat ns d := fun i j => (ns : ℝ) * matMul G xt i j
  solveLin d (fun i j => matMul (matT xs) xs i j + eta * eyeM d i j)
    (fun i j => matMul (matT xs) xst i j + eta * eyeM d i j)

/-- `solve_L` of `joint_OT_mapping_linear` with bias: same system with
`xs1 = hstack((xs, 1))`, the last-row-zeroed `I` and `I0 = I[:, :-1]`. -/
noncomputable def jointLin_solve_L_bias {ns nt d : ℕ} (solveLin : LinSolver d)
    (xs : Mat ns d) (xt : Mat nt d) (eta : ℝ) (G : Mat ns nt) : Mat (d + 1) d :=
  let xs1 := hstackOnes xs
  let xst : Mat ns d := fun i j => (ns : ℝ) * matMul G xt i j
  solveLin (d + 1) (fun i j => matMul (matT xs1) xs1 i j + eta * eyeLastRowZero d i j)
    (fun i j => matMul (matT xs1) xst i j + eta * eyeDropLastCol d i j)

/-- The full loss of `joint_OT_mapping_linear` without bias:
`np.sum((xs1.dot(L) - ns*G.dot(xt))**2) + mu*np.sum(G*M) + eta*np.sum(sel(L-I0)**2)`
with `xs1 = xs`, `sel` the identity and `I0 = np.eye(d)`. -/
noncomputable def jointLin_loss_nobias {ns nt d : ℕ} (xs : Mat ns d)
    (xt : Mat nt d) (M : Mat ns nt) (mu eta : ℝ) (L : Mat d d)
    (G : Mat ns nt) : ℝ :=
  sumSq (fun i k => matMul xs L i k - (ns : ℝ) * matMul G xt i k)
    + mu * sumMulM G M + eta * sumSq (fun i j => L i j - eyeM d i j)

/-- The full loss of `joint_OT_mapping_linear` with bias (`sel` drops the bias
row of `L - I0` before squaring). -/
noncomputable def jointLin_loss_bias {ns nt d : ℕ} (xs : Mat ns d)
    (xt : Mat nt d) (M : Mat ns nt) (mu eta : ℝ) (L : Mat (d + 1) d)
    (G : Mat ns nt) : ℝ :=
  sumSq (fun i k => matMul (hstackOnes xs) L i k - (ns : ℝ) * matMul G xt i k)
    + mu * sumMulM G M
    + eta * sumSq (selDropLastRow (fun i j => L i j - eyeDropLastCol d i j))

/-- `joint_OT_mapping_linear` with `bias=False`: initialize `G` by the exact
subsolver on the rescaled squared-distance cost, then run the BCD loop with the
closed-form `solve_L` and the conditional-gradient `solve_G`. -/
noncomputable def joint_OT_mapping_linear_nobias {ns nt d : ℕ}
    (emd : EmdSolver ns nt) (runInner : InnerSolverCall ns nt → Mat ns nt)
    (solveLin : LinSolver d) (xs : Mat ns d) (xt : Mat nt d) (mu eta : ℝ)
    (numItermax : ℤ) (numInnerItermax : ℕ) (stopInnerThr stopThr : ℝ)
    (log : Bool) : JointResult ns nt d d :=
  let M := jointCost xs xt
  let G0 := emd (unif ns) (unif nt) M
  bcdOutput (bcdRun runInner (jointLin_solve_L_nobias solveLin xs xt eta)
    (jointLin_loss_nobias xs xt M mu eta) xs xt M mu numInnerItermax
    stopInnerThr numItermax stopThr G0) log

/-- `joint_OT_mapping_linear` with `bias=True` (feature matrix `xs1` with the
appended ones column). -/
noncomputable def joint_OT_mapping_linear_bias {ns nt d : ℕ}
    (emd : EmdSolver ns nt) (runInner : InnerSolverCall ns nt → Mat ns nt)
    (solveLin : LinSolver d) (xs : Mat ns d) (xt : Mat nt d) (mu eta : ℝ)
    (numItermax : ℤ) (numInnerItermax : ℕ) (stopInnerThr stopThr : ℝ)
    (log : Bool) : JointResult ns nt (d + 1) d :=
  let M := jointCost xs xt
  let G0 := emd (unif ns) (unif nt) M
  bcdOutput (bcdRun runInner (jointLin_solve_L_bias solveLin xs xt eta)
    (jointLin_loss_bias xs xt M mu eta) (hstackOnes xs) xt M mu numInnerItermax
    stopInnerThr numItermax stopThr G0) log

/-- Type of the abstract external kernel constructor `ot.utils.kernel`, called as
`kernel(xs, xs, method=kerneltype, sigma=sigma)`. -/
def KernelConstructor (ns d : ℕ) : Type :=
  String → ℝ → Mat ns d → Mat ns d → Mat ns ns

/-- The feature matrix of the kernel bias branch:
`K1 = np.hstack((K, np.ones((ns, 1))))`. -/
noncomputable def K1_bias {ns : ℕ} (K : Mat ns ns) : Mat ns (ns + 1) :=
  hstackOnes K

/-- The regularizer matrix of the kernel bias branch: `Kp = np.eye(ns + 1)` with
its top-left `ns × ns` block overwritten by `K`. -/
noncomputable def Kp_bias {ns : ℕ} (K : Mat ns ns) : Mat (ns + 1) (ns + 1) :=
  fun i j =>
    if h : (i : ℕ) < ns ∧ (j : ℕ) < ns then K ⟨i, h.1⟩ ⟨j, h.2⟩
    else if (i : ℕ) = (j : ℕ) then 1 else 0

/-- The system matrix of the kernel bias branch (RKHS regularization):
`K0 = K1.T.dot(K1) + eta * Kp`. -/
noncomputable def jointKer_K0_bias {ns : ℕ} (K : Mat ns ns) (eta : ℝ) :
    Mat (ns + 1) (ns + 1) :=
  fun i j => matMul (matT (K1_bias K)) (K1_bias K) i j + eta * Kp_bias K i j

/-- The system matrix of the kernel no-bias branch (proper kernel ridge):
`K0 = K + eta * I` with `I = np.eye(ns)`. -/
noncomputable def jointKer_K0_nobias {ns : ℕ} (K : Mat ns ns) (eta : ℝ) :
    Mat ns ns :=
  fun i j => K i j + eta * eyeM ns i j

/-- The spec-side formula of section 4.3 step 2 for the kernel system matrix,
written from the spec text: `K0 = K1ᵀ K1 + eta * K_reg` (claimed there to hold
in both kernel cases). -/
noncomputable def specK0 {ns m : ℕ} (K1 : Mat ns m) (Kreg : Mat m m) (eta : ℝ) :
    Mat m m :=
  fun i j => matMul (matT K1) K1 i j + eta * Kreg i j

/-- `solve_L_nobias` of `joint_OT_mapping_kernel`: solve `K0 L = ns * G.dot(xt)`. -/
noncomputable def jointKer_solve_L_nobias {ns nt d : ℕ} (solveLin : LinSolver d)
    (K : Mat ns ns) (xt : Mat nt d) (eta : ℝ) (G : Mat ns nt) : Mat ns d :=
  let xst : Mat ns d := fun i j => (ns : ℝ) * matMul G xt i j
  solveLin ns (jointKer_K0_nobias K eta) xst

/-- `solve_L_bias` of `joint_OT_mapping_kernel`: solve
`K0 L = K1.T.dot(ns * G.dot(xt))`. -/
noncomputable def jointKer_solve_L_bias {ns nt d : ℕ} (solveLin : LinSolver d)
    (K : Mat ns ns) (xt : Mat nt d) (eta : ℝ) (G : Mat ns nt) : Mat (ns + 1) d :=
  let xst : Mat ns d := fun i j => (ns : ℝ) * matMul G xt i j
  solveLin (ns + 1) (jointKer_K0_bias K eta) (matMul (matT (K1_bias K)) xst)

/-- `np.trace(L.T.dot(Kreg).dot(L))`, the RKHS regularization term of the
kernel loss. -/
noncomputable def traceQuad {m n : ℕ} (Kreg : Mat m m) (L : Mat m n) : ℝ :=
  ∑ k, matMul (matT L) (matMul Kreg L) k k

/-- The full loss of `joint_OT_mapping_kernel` without bias (`K1 = K`,
`Kreg = K`). -/
noncomputable def jointKer_loss_nobias {ns nt d : ℕ} (K : Mat ns ns)
    (xt : Mat nt d) (M : Mat ns nt) (mu eta : ℝ) (L : Mat ns d)
    (G : Mat ns nt) : ℝ :=
  sumSq (fun i k => matMul K L i k - (ns : ℝ) * matMul G xt i k)
    + mu * sumMulM G M + eta * traceQuad K L

/-- The full loss of `joint_OT_mapping_kernel` with bias (`K1 = hstack((K, 1))`,
`Kreg = Kp`). -/
noncomputable def jointKer_loss_bias {ns nt d : ℕ} (K : Mat ns ns)
    (xt : Mat nt d) (M : Mat ns nt) (mu eta : ℝ) (L : Mat (ns + 1) d)
    (G : Mat ns nt) : ℝ :=
  sumSq (fun i k => matMul (K1_bias K) L i k - (ns : ℝ) * matMul G xt i k)
    + mu * sumMulM G M + eta * traceQuad (Kp_bias K) L

/-- `joint_OT_mapping_kernel` with `bias=False`. -/
noncomputable def joint_OT_mapping_kernel_nobias {ns nt d : ℕ}
    (emd : EmdSolver ns nt) (runInner : InnerSolverCall ns nt → Mat ns nt)
    (solveLin : LinSolver d) (kern : KernelConstructor ns d)
    (xs : Mat ns d) (xt : Mat nt d) (mu eta : ℝ) (kerneltype : String)
    (sigma : ℝ) (numItermax : ℤ) (numInnerItermax : ℕ)
    (stopInnerThr stopThr : ℝ) (log : Bool) : JointResult ns nt ns d :=
  let K := kern kerneltype sigma xs xs
  let M := jointCost xs xt
  let G0 := emd (unif ns) (unif nt) M
  bcdOutput (bcdRun runInner (jointKer_solve_L_nobias solveLin K xt eta)
    (jointKer_loss_nobias K xt M mu eta) K xt M mu numInnerItermax
    stopInnerThr numItermax stopThr G0) log

/-- `joint_OT_mapping_kernel` with `bias=True`. -/
noncomputable def joint_OT_mapping_kernel_bias {ns nt d : ℕ}
    (emd : EmdSolver ns nt) (runInner : InnerSolverCall ns nt → Mat ns nt)
    (solveLin : LinSolver d) (kern : KernelConstructor ns d)
    (xs : Mat ns d) (xt : Mat nt d) (mu eta : ℝ) (kerneltype : String)
    (sigma : ℝ) (numItermax : ℤ) (numInnerItermax : ℕ)
    (stopInnerThr stopThr : ℝ) (log : Bool) : JointResult ns nt (ns + 1) d :=
  let K := kern kerneltype sigma xs xs
  let M := jointCost xs xt
  let G0 := emd (unif ns) (unif nt) M
  bcdOutput (bcdRun runInner (jointKer_solve_L_bias solveLin K xt eta)
    (jointKer_loss_bias K xt M mu eta) (K1_bias K) xt M mu numInnerItermax
    stopInnerThr numItermax stopThr G0) log

/-- Spec-side reconstruction objective of section 4.3 step 4, written from the
spec text: `f(γ) = ‖L(feature(Xs)) - n_s γ Xt‖²` (with `FX` the feature matrix
`feature(Xs)` and `L` applied on the right, numpy convention). -/
noncomputable def spec_joint_f {ns nt d dp : ℕ} (FX : Mat ns dp) (L : Mat dp d)
    (xt : Mat nt d) (G : Mat ns nt) : ℝ :=
  sumSq (fun i k => matMul FX L i k - (ns : ℝ) * matMul G xt i k)

/-- The exact gradient of `spec_joint_f` in γ:
`-2 n_s (L(feature(Xs)) - n_s γ Xt) Xtᵀ`. -/
noncomputable def spec_joint_df {ns nt d dp : ℕ} (FX : Mat ns dp) (L : Mat dp d)
    (xt : Mat nt d) (G : Mat ns nt) : Mat ns nt :=
  fun i j =>
    -2 * (ns : ℝ) *
      matMul (fun i2 k => matMul FX L i2 k - (ns : ℝ) * matMul G xt i2 k)
        (matT xt) i j

/-- Spec-side group-lasso penalty of section 4.2, written from the spec text:
the sum over target columns and over the set of classes of the Euclidean norm
of the class-restricted column block. -/
noncomputable def spec_l1l2_f {ns nt : ℕ} (labels_a : Fin ns → ℤ)
    (G : Mat ns nt) : ℝ :=
  ∑ i : Fin nt, ∑ lab ∈ Finset.image labels_a Finset.univ,
    blockNorm labels_a lab G i

/-- Concrete entropic subsolver used in closed instances: returns its cost
argument. -/
noncomputable def wSink1 : SinkhornSolver 1 1 := fun _ _ M _ _ _ => M

/-- Concrete entropic subsolver on a 2-by-1 problem. -/
noncomputable def wSink2 : SinkhornSolver 2 1 := fun _ _ M _ _ _ => M

/-- Concrete single-class label vector on one source sample. -/
def wLab1 : Fin 1 → ℤ := fun _ => 0

/-- Concrete single-class label vector on two source samples. -/
def wLab2 : Fin 2 → ℤ := fun _ => 0

/-- Concrete weight vector of length 1. -/
noncomputable def wVec1 : Fin 1 → ℝ := fun _ => 1

/-- Concrete weight vector of length 2. -/
noncomputable def wVec2 : Fin 2 → ℝ := fun _ => 1 / 2

/-- Concrete all-zeros matrix. -/
noncomputable def wZ (m n : ℕ) : Mat m n := fun _ _ => 0

/-- Concrete all-ones matrix. -/
noncomputable def wO (m n : ℕ) : Mat m n := fun _ _ => 1

/-- Concrete exact subsolver: returns its cost argument. -/
noncomputable def wEmd1 : EmdSolver 1 1 := fun _ _ M => M

/-- Concrete inner-engine interpreter: returns the all-zeros coupling. -/
noncomputable def wRun1 : InnerSolverCall 1 1 → Mat 1 1 := fun _ => wZ 1 1

/-- Concrete linear-system solver: returns the right-hand side. -/
noncomputable def wLin1 : LinSolver 1 := fun _ _ B => B

/-- Concrete kernel constructor on a 1-point sample set. -/
noncomputable def wKern1 : KernelConstructor 1 1 := fun _ _ _ _ => wO 1 1

/-- Concrete kernel method name. -/
def wKtype : String := "gaussian"

/-- Concrete 2-by-2 Gram matrix with unit diagonal and off-diagonal 1/2. -/
noncomputable def wK2 : Mat 2 2 := fun i j => if i = j then 1 else 1 / 2

/-- Concrete BCD state with the loop flag set. -/
noncomputable def wBCD1 : BCDState 1 1 1 1 := ⟨wO 1 1, wO 1 1, 0, [], 0, true⟩

theorem mem_lstlab {ns : ℕ} (labels_a : Fin ns → ℤ) (r : Fin ns) :
    labels_a r ∈ lstlab labels_a := by
  unfold lstlab
  rw [List.mem_dedup]
  exact List.mem_map.mpr ⟨r, List.mem_finRange r, rfl⟩

theorem classFoldW_apply {ns nt : ℕ} (labels_a : Fin ns → ℤ)
    (v : ℤ → Fin nt → ℝ) (l : List ℤ) (W0 : Mat ns nt) (r : Fin ns) (j : Fin nt) :
    classFoldW labels_a v l W0 r j
      = if labels_a r ∈ l then v (labels_a r) j else W0 r j := by
  unfold classFoldW
  induction l generalizing W0 with
  | nil => simp
  | cons c rest ih =>
      rw [List.foldl_cons, ih]
      by_cases h1 : labels_a r ∈ rest
      · simp [h1]
      · by_cases h2 : labels_a r = c
        · simp [h1, h2]
        · simp [h1, h2]

theorem lpl1_W_apply {ns nt : ℕ} (labels_a : Fin ns → ℤ) (transp : Mat ns nt)
    (r : Fin ns) (j : Fin nt) :
    lpl1_W labels_a transp r j
      = lpl1_p * (classMass labels_a (labels_a r) transp j + lpl1_epsilon)
          ^ (lpl1_p - 1) := by
  unfold lpl1_W
  rw [classFoldW_apply]
  simp [mem_lstlab]

theorem lpl1Trace_succ {ns nt : ℕ} (sinkhorn : SinkhornSolver ns nt)
    (a : Fin ns → ℝ) (labels_a : Fin ns → ℤ) (b : Fin nt → ℝ) (M : Mat ns nt)
    (reg eta : ℝ) (numInnerItermax : ℕ) (stopInnerThr : ℝ) (t : ℕ) :
    lpl1Trace sinkhorn a labels_a b M reg eta numInnerItermax stopInnerThr (t + 1)
      = lpl1Iter sinkhorn a labels_a b M reg eta numInnerItermax stopInnerThr
          (lpl1Trace sinkhorn a labels_a b M reg eta numInnerItermax stopInnerThr t) := by
  unfold lpl1Trace
  exact Function.iterate_succ_apply' _ t _

theorem lpl1Trace_isSome {ns nt : ℕ} (sinkhorn : SinkhornSolver ns nt)
    (a : Fin ns → ℝ) (labels_a : Fin ns → ℤ) (b : Fin nt → ℝ) (M : Mat ns nt)
    (reg eta : ℝ) (numInnerItermax : ℕ) (stopInnerThr : ℝ) (n : ℕ)
    (hn : 1 ≤ n) :
    (lpl1Trace sinkhorn a labels_a b M reg eta numInnerItermax stopInnerThr n).2.isSome
      = true := by
  obtain ⟨k, rfl⟩ : ∃ k, n = k + 1 := ⟨n - 1, by omega⟩
  rw [lpl1Trace_succ]
  rfl

theorem l1l2_dfInner_apply {ns nt : ℕ} (labels_a : Fin ns → ℤ) (G : Mat ns nt)
    (i : Fin nt) (l : List ℤ) (W0 : Mat ns nt) (r : Fin ns) (j : Fin nt) :
    l1l2_dfInner labels_a G i l W0 r j
      = if labels_a r ∈ l ∧ j = i ∧ blockNorm labels_a (labels_a r) G i ≠ 0
        then G r i / blockNorm labels_a (labels_a r) G i else W0 r j := by
  unfold l1l2_dfInner
  induction l generalizing W0 with
  | nil => simp
  | cons c rest ih =>
      rw [List.foldl_cons, ih]
      by_cases hcn : blockNorm labels_a c G i = 0
      · rw [if_pos hcn]
        by_cases hc : labels_a r = c
        · simp [hc, hcn, List.mem_cons]
        · simp [hc, List.mem_cons]
      · rw [if_neg hcn]
        by_cases hc : labels_a r = c
        · by_cases hj : j = i
          · by_cases hmem : labels_a r ∈ rest
            · simp [hc, hj, hmem, hcn, List.mem_cons]
            · simp [hc, hj, hmem, hcn, List.mem_cons]
          · simp [hc, hj, List.mem_cons]
        · simp [hc, List.mem_cons]

theorem l1l2_dfOuter_apply {ns nt : ℕ} (labels_a : Fin ns → ℤ) (G : Mat ns nt)
    (cols : List (Fin nt)) (W0 : Mat ns nt) (r : Fin ns) (j : Fin nt) :
    (cols.foldl (fun W i => l1l2_dfInner labels_a G i (lstlab labels_a) W) W0) r j
      = if j ∈ cols ∧ blockNorm labels_a (labels_a r) G j ≠ 0
        then G r j / blockNorm labels_a (labels_a r) G j else W0 r j := by
  induction cols generalizing W0 with
  | nil => simp
  | cons i rest ih =>
      rw [List.foldl_cons, ih, l1l2_dfInner_apply]
      have hmem := mem_lstlab labels_a r
      by_cases hn : blockNorm labels_a (labels_a r) G j = 0
      · by_cases hj : j = i
        · subst hj; simp [hn, hmem]
        · simp [hn, hj, List.mem_cons]
      · by_cases hjr : j ∈ rest
        · simp [hn, hjr, List.mem_cons]
        · by_cases hj : j = i
          · subst hj; simp [hn, hjr, hmem, List.mem_cons]
          · simp [hn, hjr, hj, List.mem_cons]

theorem l1l2_df_apply {ns nt : ℕ} (labels_a : Fin ns → ℤ) (G : Mat ns nt)
    (r : Fin ns) (j : Fin nt) :
    l1l2_df labels_a G r j
      = if blockNorm labels_a (labels_a r) G j = 0 then 0
        else G r j / blockNorm labels_a (labels_a r) G j := by
  unfold l1l2_df
  rw [l1l2_dfOuter_apply]
  by_cases hn : blockNorm labels_a (labels_a r) G j = 0
  · simp [hn]
  · simp [hn, List.mem_finRange]

theorem lstlab_sum {ns : ℕ} (labels_a : Fin ns → ℤ) (g : ℤ → ℝ) :
    ((lstlab labels_a).map g).sum
      = ∑ lab ∈ Finset.image labels_a Finset.univ, g lab := by
  unfold lstlab
  rw [← List.sum_toFinset _ (List.nodup_dedup _)]
  congr 1
  ext x
  simp

theorem l1l2_f_eq_spec {ns nt : ℕ} (labels_a : Fin ns → ℤ) (G : Mat ns nt) :
    l1l2_f labels_a G = spec_l1l2_f labels_a G := by
  unfold l1l2_f spec_l1l2_f
  rw [← Fin.sum_univ_def]
  exact Finset.sum_congr rfl (fun i _ => lstlab_sum labels_a _)

/-- C1 (code bug): the claim — in line with the function docstring ("log
dictionary return only if log==True") — says log=True makes `sinkhorn_lpl1_mm`
return a diagnostics structure alongside the coupling.  The code accepts `log`
but never builds or returns any log: the returned value is the bare coupling,
identical for log=True and log=False.  (`sinkhorn_l1l2_gl` does forward `log`
to the gcg engine; the violation is in `sinkhorn_lpl1_mm`.) -/
theorem C1_lpl1_log_ignored {ns nt : ℕ} (sinkhorn : SinkhornSolver ns nt)
    (a : Fin ns → ℝ) (labels_a : Fin ns → ℤ) (b : Fin nt → ℝ) (M : Mat ns nt)
    (reg eta : ℝ) (numItermax : ℤ) (numInnerItermax : ℕ) (stopInnerThr : ℝ)
    (verbose : Bool) :
    sinkhorn_lpl1_mm sinkhorn a labels_a b M reg eta numItermax
        numInnerItermax stopInnerThr verbose true
      = sinkhorn_lpl1_mm sinkhorn a labels_a b M reg eta numItermax
          numInnerItermax stopInnerThr verbose false := rfl

/-- C3 counterexample: the structurally invalid input eta = -1 (a non-positive
regularization weight, which per the claim must raise before any iteration) is
not rejected: `sinkhorn_lpl1_mm` runs its iteration and returns a coupling
(`isSome`); the only failure the function can produce is the unbound-local
`none`, which does not occur. -/
theorem C3_counterexample :
    (sinkhorn_lpl1_mm wSink1 wVec1 wLab1 wVec1 (wZ 1 1) 1 (-1) 1 200 (1e-9)
      false false).isSome = true := by
  unfold sinkhorn_lpl1_mm
  exact lpl1Trace_isSome _ _ _ _ _ _ _ _ _ _ (by decide)

/-- C3 amended: no top-level solver in this module validates its inputs.
Non-positive regularization weights are silently accepted and flow into the
computation: under the invalid-input hypothesis eta ≤ 0, `sinkhorn_lpl1_mm`
with a positive budget still returns a coupling, and the joint linear estimator
still returns a plain (G, L) pair — there is no invalid-input failure at all
(shape mismatches are the one exception, being unrepresentable here because the
embedding types its matrices by their shapes). -/
theorem C3_no_input_validation (ns nt d : ℕ) (eta : ℝ) (heta : eta ≤ 0) :
    (∀ (sinkhorn : SinkhornSolver ns nt) (a : Fin ns → ℝ)
        (labels_a : Fin ns → ℤ) (b : Fin nt → ℝ) (M : Mat ns nt) (reg : ℝ)
        (numItermax : ℤ) (numInnerItermax : ℕ) (stopInnerThr : ℝ)
        (verbose log : Bool), 1 ≤ numItermax →
      (sinkhorn_lpl1_mm sinkhorn a labels_a b M reg eta numItermax
        numInnerItermax stopInnerThr verbose log).isSome = true)
    ∧ (∀ (emd : EmdSolver ns nt) (runInner : InnerSolverCall ns nt → Mat ns nt)
        (solveLin : LinSolver d) (xs : Mat ns d) (xt : Mat nt d) (mu : ℝ)
        (numItermax : ℤ) (numInnerItermax : ℕ) (stopInnerThr stopThr : ℝ),
      ∃ G L, joint_OT_mapping_linear_nobias emd runInner solveLin xs xt mu eta
        numItermax numInnerItermax stopInnerThr stopThr false
          = JointResult.plain G L) := by
  constructor
  · intro sinkhorn a labels_a b M reg numItermax numInnerItermax stopInnerThr
      verbose log h
    unfold sinkhorn_lpl1_mm
    exact lpl1Trace_isSome _ _ _ _ _ _ _ _ _ _ (by omega)
  · intro emd runInner solveLin xs xt mu numItermax numInnerItermax
      stopInnerThr stopThr
    exact ⟨_, _, rfl⟩

/-- C3 witness: the amended theorem applied at the concrete invalid input
eta = -1. -/
theorem C3_witness :
    (-1 : ℝ) ≤ 0
    ∧ (sinkhorn_lpl1_mm wSink1 wVec1 wLab1 wVec1 (wZ 1 1) 1 (-1) 2 200 (1e-9)
        false false).isSome = true :=
  ⟨by norm_num,
   (C3_no_input_validation 1 1 1 (-1) (by norm_num)).1 wSink1 wVec1 wLab1
     wVec1 (wZ 1 1) 1 2 200 (1e-9) false false (by decide)⟩

/-- C10: if `sinkhorn_lpl1_mm` is called with numItermax ≤ 0, the outer loop
body never executes, the local `transp` is never assigned, and the function
terminates in the unbound-local failure (`none`) at its return statement
instead of returning a coupling; a coupling is returned exactly when
numItermax ≥ 1. -/
theorem C10_lpl1_nonpos_budget_unbound_local {ns nt : ℕ}
    (sinkhorn : SinkhornSolver ns nt) (a : Fin ns → ℝ) (labels_a : Fin ns → ℤ)
    (b : Fin nt → ℝ) (M : Mat ns nt) (reg eta : ℝ) (numItermax : ℤ)
    (numInnerItermax : ℕ) (stopInnerThr : ℝ) (verbose log : Bool) :
    (numItermax ≤ 0 →
      sinkhorn_lpl1_mm sinkhorn a labels_a b M reg eta numItermax
        numInnerItermax stopInnerThr verbose log = none)
    ∧ (1 ≤ numItermax →
      (sinkhorn_lpl1_mm sinkhorn a labels_a b M reg eta numItermax
        numInnerItermax stopInnerThr verbose log).isSome = true) := by
  constructor
  · intro h
    unfold sinkhorn_lpl1_mm
    rw [Int.toNat_of_nonpos h]
    rfl
  · intro h
    unfold sinkhorn_lpl1_mm
    exact lpl1Trace_isSome _ _ _ _ _ _ _ _ _ _ (by omega)

/-- C10 witness: both branches at concrete budgets -2 and 3. -/
theorem C10_witness :
    sinkhorn_lpl1_mm wSink1 wVec1 wLab1 wVec1 (wZ 1 1) 1 1 (-2) 200 (1e-9)
        false false = none
    ∧ (sinkhorn_lpl1_mm wSink1 wVec1 wLab1 wVec1 (wZ 1 1) 1 1 3 200 (1e-9)
        false false).isSome = true :=
  ⟨(C10_lpl1_nonpos_budget_unbound_local wSink1 wVec1 wLab1 wVec1 (wZ 1 1) 1 1
      (-2) 200 (1e-9) false false).1 (by decide),
   (C10_lpl1_nonpos_budget_unbound_local wSink1 wVec1 wLab1 wVec1 (wZ 1 1) 1 1
      3 200 (1e-9) false false).2 (by decide)⟩

/-- C6: structure of the majorize-minimize loop of `sinkhorn_lpl1_mm`.
(i) Each outer iteration solves the entropic subproblem on the modified cost
M + eta*W built from the current weights; (ii) the recomputed weight matrix is,
entrywise, the majorizer p*(mass + epsilon)^(p-1) with p = 0.5 and
epsilon = 1e-3 applied to the per-class column mass of the new coupling (the
sum of the coupling over the rows sharing the entry's class), broadcast over
every row of that class; (iii) the solver returns the state after exactly
max(numItermax, 0) outer iterations — the iteration count depends on
numItermax alone, with no early-stopping check on any objective value. -/
theorem C6_lpl1_mm_structure {ns nt : ℕ} (sinkhorn : SinkhornSolver ns nt)
    (a : Fin ns → ℝ) (labels_a : Fin ns → ℤ) (b : Fin nt → ℝ) (M : Mat ns nt)
    (reg eta : ℝ) (numInnerItermax : ℕ) (stopInnerThr : ℝ) :
    (∀ t : ℕ,
      (lpl1Trace sinkhorn a labels_a b M reg eta numInnerItermax stopInnerThr
          (t + 1)).2
        = some (sinkhorn a b
            (fun i j => M i j + eta *
              (lpl1Trace sinkhorn a labels_a b M reg eta numInnerItermax
                stopInnerThr t).1 i j)
            reg numInnerItermax stopInnerThr))
    ∧ (∀ (t : ℕ) (transp : Mat ns nt),
        (lpl1Trace sinkhorn a labels_a b M reg eta numInnerItermax stopInnerThr
            (t + 1)).2 = some transp →
        ∀ (r : Fin ns) (j : Fin nt),
          (lpl1Trace sinkhorn a labels_a b M reg eta numInnerItermax
              stopInnerThr (t + 1)).1 r j
            = (0.5 : ℝ) *
                ((∑ rr, if labels_a rr = labels_a r then transp rr j else 0)
                  + 1e-3) ^ ((0.5 : ℝ) - 1))
    ∧ (∀ (numItermax : ℤ) (verbose log : Bool),
        sinkhorn_lpl1_mm sinkhorn a labels_a b M reg eta numItermax
            numInnerItermax stopInnerThr verbose log
          = (lpl1Trace sinkhorn a labels_a b M reg eta numInnerItermax
              stopInnerThr numItermax.toNat).2) := by
  refine ⟨?_, ?_, ?_⟩
  · intro t
    rw [lpl1Trace_succ]
    rfl
  · intro t transp h r j
    rw [lpl1Trace_succ] at h ⊢
    have h2 : sinkhorn a b
        (fun i j => M i j + eta *
          (lpl1Trace sinkhorn a labels_a b M reg eta numInnerItermax
            stopInnerThr t).1 i j) reg numInnerItermax stopInnerThr = transp :=
      Option.some.inj h
    subst h2
    show lpl1_W labels_a _ r j = _
    rw [lpl1_W_apply]
    unfold lpl1_p lpl1_epsilon classMass
    rfl
  · intro numItermax verbose log
    rfl

/-- C6 witness: the weight formula instantiated after one outer iteration of a
concrete run. -/
theorem C6_witness :
    (lpl1Trace wSink1 wVec1 wLab1 wVec1 (wZ 1 1) 1 1 200 (1e-9) 1).1 0 0
      = (0.5 : ℝ) *
          ((∑ rr, if wLab1 rr = wLab1 0 then
              wSink1 wVec1 wVec1
                (fun i j => wZ 1 1 i j + 1 *
                  (lpl1Trace wSink1 wVec1 wLab1 wVec1 (wZ 1 1) 1 1 200 (1e-9)
                    0).1 i j) 1 200 (1e-9) rr 0
            else 0) + 1e-3) ^ ((0.5 : ℝ) - 1) :=
  (C6_lpl1_mm_structure wSink1 wVec1 wLab1 wVec1 (wZ 1 1) 1 1 200
    (1e-9)).2.1 0 _ rfl 0 0

/-- C9: with a single class (all labels equal), the first outer iteration of
`sinkhorn_lpl1_mm` is a plain entropic Sinkhorn solve on the unmodified cost M
(the initial W is zero), and the recomputed weight matrix applied to any
coupling with non-negative entries has every entry non-negative and bounded
above by the finite constant p * epsilon^(p-1) (the model's rendering of
"finite": a uniform real bound). -/
theorem C9_single_class_reduction {ns nt : ℕ} (sinkhorn : SinkhornSolver ns nt)
    (a : Fin ns → ℝ) (labels_a : Fin ns → ℤ) (b : Fin nt → ℝ) (M : Mat ns nt)
    (reg eta : ℝ) (numInnerItermax : ℕ) (stopInnerThr : ℝ)
    (hsingle : ∀ r rr : Fin ns, labels_a r = labels_a rr) :
    ((lpl1Trace sinkhorn a labels_a b M reg eta numInnerItermax stopInnerThr
        1).2 = some (sinkhorn a b M reg numInnerItermax stopInnerThr))
    ∧ (∀ transp : Mat ns nt, (∀ r j, 0 ≤ transp r j) →
        ∀ (r : Fin ns) (j : Fin nt),
          0 ≤ lpl1_W labels_a transp r j
          ∧ lpl1_W labels_a transp r j ≤ lpl1_p * lpl1_epsilon ^ (lpl1_p - 1)) := by
  constructor
  · have hM : (fun i j => M i j + eta *
        (lpl1Trace sinkhorn a labels_a b M reg eta numInnerItermax stopInnerThr
          0).1 i j) = M := by
      funext i j
      show M i j + eta * 0 = M i j
      ring
    calc (lpl1Trace sinkhorn a labels_a b M reg eta numInnerItermax stopInnerThr
            1).2
        = some (sinkhorn a b
            (fun i j => M i j + eta *
              (lpl1Trace sinkhorn a labels_a b M reg eta numInnerItermax
                stopInnerThr 0).1 i j) reg numInnerItermax stopInnerThr) := by
          rw [lpl1Trace_succ]
          rfl
      _ = some (sinkhorn a b M reg numInnerItermax stopInnerThr) := by rw [hM]
  · intro transp htr r j
    have hmass : 0 ≤ classMass labels_a (labels_a r) transp j := by
      refine Finset.sum_nonneg (fun rr _ => ?_)
      by_cases h : labels_a rr = labels_a r
      · simpa [h] using htr rr j
      · simp [h]
    have heps : (0 : ℝ) < lpl1_epsilon := by unfold lpl1_epsilon; norm_num
    have hbase : (0 : ℝ) < classMass labels_a (labels_a r) transp j + lpl1_epsilon := by
      linarith
    constructor
    · rw [lpl1_W_apply]
      exact mul_nonneg (by unfold lpl1_p; norm_num)
        (Real.rpow_nonneg hbase.le _)
    · rw [lpl1_W_apply]
      have hmono := Real.rpow_le_rpow_of_nonpos heps
        (by linarith : lpl1_epsilon ≤ classMass labels_a (labels_a r) transp j + lpl1_epsilon)
        (by unfold lpl1_p; norm_num : lpl1_p - 1 ≤ 0)
      exact mul_le_mul_of_nonneg_left hmono (by unfold lpl1_p; norm_num)

/-- C9 witness: the single-class hypothesis and the non-negativity conclusion at
a concrete all-zeros coupling on two samples of one class. -/
theorem C9_witness :
    (∀ r rr : Fin 2, wLab2 r = wLab2 rr)
    ∧ 0 ≤ lpl1_W wLab2 (wZ 2 1) 0 0 :=
  ⟨fun r rr => rfl,
   ((C9_single_class_reduction wSink2 wVec2 wLab2 wVec1 (wZ 2 1) 1 1 200 (1e-9)
      (fun r rr => rfl)).2 (wZ 2 1) (fun r j => le_refl 0) 0 0).1⟩

/-- C7: `sinkhorn_l1l2_gl` delegates the whole optimization to the GCG engine
with its group-lasso f and df and no warm start (G0 = None); f equals the sum
over target columns and over classes of the Euclidean norm of the
class-restricted column block; df is, entrywise, the normalized sub-block
temp/norm, set exactly to zero wherever the block's norm is zero. -/
theorem C7_l1l2_gl_structure {ns nt : ℕ} {α : Type} (a : Fin ns → ℝ)
    (labels_a : Fin ns → ℤ) (b : Fin nt → ℝ) (M : Mat ns nt) (reg eta : ℝ)
    (numItermax : ℤ) (numInnerItermax : ℕ) (stopInnerThr : ℝ)
    (verbose log : Bool) :
    (∀ gcgEngine : InnerSolverCall ns nt → α,
      sinkhorn_l1l2_gl gcgEngine a labels_a b M reg eta numItermax
          numInnerItermax stopInnerThr verbose log
        = gcgEngine (InnerSolverCall.gcg ⟨a, b, M, reg, eta, l1l2_f labels_a,
            l1l2_df labels_a, none, numItermax, numInnerItermax, stopInnerThr,
            verbose, log⟩))
    ∧ (∀ G : Mat ns nt, l1l2_f labels_a G = spec_l1l2_f labels_a G)
    ∧ (∀ (G : Mat ns nt) (r : Fin ns) (j : Fin nt),
        l1l2_df labels_a G r j
          = if blockNorm labels_a (labels_a r) G j = 0 then 0
            else G r j / blockNorm labels_a (labels_a r) G j) :=
  ⟨fun _ => rfl, fun G => l1l2_f_eq_spec labels_a G,
   fun G r j => l1l2_df_apply labels_a G r j⟩

/-- C2 counterexample: at a concrete input, the inner-solver call issued by the
joint estimators' coupling update (`solve_G`) targets the plain
conditional-gradient engine `cg`, not the GCG Engine of section 4.1. -/
theorem C2_counterexample :
    (jointSolveGCall (wO 1 1) (wZ 1 1) (wZ 1 1) 1 10 (1e-6) (wO 1 1)
      (wO 1 1)).isGcg = false := rfl

/-- C2 amended: with L fixed, the coupling update of both joint estimators is
performed by the plain conditional-gradient engine `cg` — invoked with the
single regularization weight 1/mu applied to f, and no entropic-weight
argument — with f(γ) = ‖L(feature(Xs)) − ns γ Xt‖², its exact-gradient formula
−2 ns (L(feature(Xs)) − ns γ Xt) Xtᵀ, and warm start G0 = the previous
coupling; the BCD step's coupling update is the inner engine applied to exactly
this cg call record (with the previous state's L and G). -/
theorem C2_solve_G_uses_cg (ns nt d dp : ℕ) :
    (∀ (FX : Mat ns dp) (xt : Mat nt d) (M : Mat ns nt) (mu : ℝ)
        (numInnerItermax : ℕ) (stopInnerThr : ℝ) (L : Mat dp d)
        (G0 : Mat ns nt),
      jointSolveGCall FX xt M mu numInnerItermax stopInnerThr L G0
        = InnerSolverCall.cg ⟨unif ns, unif nt, M, 1.0 / mu,
            spec_joint_f FX L xt, spec_joint_df FX L xt, G0,
            numInnerItermax, stopInnerThr⟩)
    ∧ (∀ (runInner : InnerSolverCall ns nt → Mat ns nt)
        (solve_L : Mat ns nt → Mat dp d) (lossF : Mat dp d → Mat ns nt → ℝ)
        (FX : Mat ns dp) (xt : Mat nt d) (M : Mat ns nt) (mu : ℝ)
        (numInnerItermax : ℕ) (stopInnerThr : ℝ) (numItermax : ℤ)
        (stopThr : ℝ) (s : BCDState ns nt dp d), s.loop = true →
      (bcdStep runInner solve_L lossF FX xt M mu numInnerItermax stopInnerThr
          numItermax stopThr s).G
        = runInner (jointSolveGCall FX xt M mu numInnerItermax stopInnerThr
            s.L s.G)) := by
  constructor
  · intro FX xt M mu numInnerItermax stopInnerThr L G0
    rfl
  · intro runInner solve_L lossF FX xt M mu numInnerItermax stopInnerThr
      numItermax stopThr s h
    unfold bcdStep
    rw [if_pos h]

/-- C2 witness: the BCD-step conjunct applied at a concrete state with the loop
flag set. -/
theorem C2_witness :
    (bcdStep wRun1 (fun _ => wZ 1 1) (fun _ _ => (0 : ℝ)) (wO 1 1) (wZ 1 1)
        (wZ 1 1) 1 10 (1e-6) 5 (1e-5) wBCD1).G
      = wRun1 (jointSolveGCall (wO 1 1) (wZ 1 1) (wZ 1 1) 1 10 (1e-6) wBCD1.L
          wBCD1.G) :=
  (C2_solve_G_uses_cg 1 1 1 1).2 wRun1 (fun _ => wZ 1 1) (fun _ _ => (0 : ℝ))
    (wO 1 1) (wZ 1 1) (wZ 1 1) 1 10 (1e-6) 5 (1e-5) wBCD1 rfl

/-- C4 counterexample: in the kernel no-bias branch the system matrix is
K0 = K + eta*I (kernel ridge), not the claimed K0 = K1ᵀK1 + eta*Kreg (which
there reads KᵀK + eta*K since K1 = K and Kreg = K): at the concrete Gram matrix
wK2 and eta = 1 the (0,0) entries are 2 and 9/4 respectively. -/
theorem C4_counterexample :
    jointKer_K0_nobias wK2 1 0 0 ≠ specK0 wK2 wK2 1 0 0 := by
  unfold jointKer_K0_nobias specK0 wK2 matMul matT eyeM
  norm_num [Fin.sum_univ_two]

/-- C4 amended: the closed-form L solves. Linear case (both bias settings):
solve (XᵀX + eta·I) L = Xᵀ(ns·γ·Xt) + eta·I0, where with bias X carries the
appended ones column and the bias row of I (and of I0) is zeroed. Kernel bias
case: K0 = K1ᵀK1 + eta·Kreg with Kreg = Kp, solving K0 L = K1ᵀ(ns·γ·Xt).
Kernel no-bias case (amended): K0 = K + eta·I, solving K0 L = ns·γ·Xt — not
K1ᵀK1 + eta·Kreg as the claim states for both kernel cases. -/
theorem C4_solve_L_systems (ns nt d : ℕ) :
    (∀ (solveLin : LinSolver d) (xs : Mat ns d) (xt : Mat nt d) (eta : ℝ)
        (G : Mat ns nt),
      jointLin_solve_L_nobias solveLin xs xt eta G
        = solveLin d
            (fun i j => matMul (matT xs) xs i j + eta * eyeM d i j)
            (fun i j => matMul (matT xs)
              (fun i2 j2 => (ns : ℝ) * matMul G xt i2 j2) i j
                + eta * eyeM d i j))
    ∧ (∀ (solveLin : LinSolver d) (xs : Mat ns d) (xt : Mat nt d) (eta : ℝ)
        (G : Mat ns nt),
      jointLin_solve_L_bias solveLin xs xt eta G
        = solveLin (d + 1)
            (fun i j => matMul (matT (hstackOnes xs)) (hstackOnes xs) i j
              + eta * eyeLastRowZero d i j)
            (fun i j => matMul (matT (hstackOnes xs))
              (fun i2 j2 => (ns : ℝ) * matMul G xt i2 j2) i j
                + eta * eyeDropLastCol d i j))
    ∧ (∀ (K : Mat ns ns) (eta : ℝ),
        jointKer_K0_bias K eta = specK0 (K1_bias K) (Kp_bias K) eta)
    ∧ (∀ (solveLin : LinSolver d) (K : Mat ns ns) (xt : Mat nt d) (eta : ℝ)
        (G : Mat ns nt),
      jointKer_solve_L_bias solveLin K xt eta G
        = solveLin (ns + 1) (jointKer_K0_bias K eta)
            (matMul (matT (K1_bias K))
              (fun i2 j2 => (ns : ℝ) * matMul G xt i2 j2)))
    ∧ (∀ (K : Mat ns ns) (eta : ℝ),
        jointKer_K0_nobias K eta = fun i j => K i j + eta * eyeM ns i j)
    ∧ (∀ (solveLin : LinSolver d) (K : Mat ns ns) (xt : Mat nt d) (eta : ℝ)
        (G : Mat ns nt),
      jointKer_solve_L_nobias solveLin K xt eta G
        = solveLin ns (jointKer_K0_nobias K eta)
            (fun i2 j2 => (ns : ℝ) * matMul G xt i2 j2)) :=
  ⟨fun _ _ _ _ _ => rfl, fun _ _ _ _ _ => rfl, fun _ _ => rfl,
   fun _ _ _ _ _ => rfl, fun _ _ => rfl, fun _ _ _ _ _ => rfl⟩

/-- C5: called with numItermax ≤ 0, each joint estimator performs exactly the
one closed-form L solve on the initial exact-transport (EMD) coupling and
returns that (γ, L) pair — the BCD loop flag starts cleared and no
coordinate-descent round executes (all four bias/kernel variants). -/
theorem C5_nonpos_budget_one_shot (ns nt d : ℕ) (numItermax : ℤ)
    (h : numItermax ≤ 0) :
    (∀ (emd : EmdSolver ns nt) (runInner : InnerSolverCall ns nt → Mat ns nt)
        (solveLin : LinSolver d) (xs : Mat ns d) (xt : Mat nt d) (mu eta : ℝ)
        (numInnerItermax : ℕ) (stopInnerThr stopThr : ℝ),
      joint_OT_mapping_linear_nobias emd runInner solveLin xs xt mu eta
          numItermax numInnerItermax stopInnerThr stopThr false
        = JointResult.plain (emd (unif ns) (unif nt) (jointCost xs xt))
            (jointLin_solve_L_nobias solveLin xs xt eta
              (emd (unif ns) (unif nt) (jointCost xs xt))))
    ∧ (∀ (emd : EmdSolver ns nt) (runInner : InnerSolverCall ns nt → Mat ns nt)
        (solveLin : LinSolver d) (xs : Mat ns d) (xt : Mat nt d) (mu eta : ℝ)
        (numInnerItermax : ℕ) (stopInnerThr stopThr : ℝ),
      joint_OT_mapping_linear_bias emd runInner solveLin xs xt mu eta
          numItermax numInnerItermax stopInnerThr stopThr false
        = JointResult.plain (emd (unif ns) (unif nt) (jointCost xs xt))
            (jointLin_solve_L_bias solveLin xs xt eta
              (emd (unif ns) (unif nt) (jointCost xs xt))))
    ∧ (∀ (emd : EmdSolver ns nt) (runInner : InnerSolverCall ns nt → Mat ns nt)
        (solveLin : LinSolver d) (kern : KernelConstructor ns d)
        (xs : Mat ns d) (xt : Mat nt d) (mu eta : ℝ) (kerneltype : String)
        (sigma : ℝ) (numInnerItermax : ℕ) (stopInnerThr stopThr : ℝ),
      joint_OT_mapping_kernel_nobias emd runInner solveLin kern xs xt mu eta
          kerneltype sigma numItermax numInnerItermax stopInnerThr stopThr false
        = JointResult.plain (emd (unif ns) (unif nt) (jointCost xs xt))
            (jointKer_solve_L_nobias solveLin (kern kerneltype sigma xs xs) xt
              eta (emd (unif ns) (unif nt) (jointCost xs xt))))
    ∧ (∀ (emd : EmdSolver ns nt) (runInner : InnerSolverCall ns nt → Mat ns nt)
        (solveLin : LinSolver d) (kern : KernelConstructor ns d)
        (xs : Mat ns d) (xt : Mat nt d) (mu eta : ℝ) (kerneltype : String)
        (sigma : ℝ) (numInnerItermax : ℕ) (stopInnerThr stopThr : ℝ),
      joint_OT_mapping_kernel_bias emd runInner solveLin kern xs xt mu eta
          kerneltype sigma numItermax numInnerItermax stopInnerThr stopThr false
        = JointResult.plain (emd (unif ns) (unif nt) (jointCost xs xt))
            (jointKer_solve_L_bias solveLin (kern kerneltype sigma xs xs) xt
              eta (emd (unif ns) (unif nt) (jointCost xs xt)))) := by
  have h0 : numItermax.toNat = 0 := Int.toNat_of_nonpos h
  refine ⟨?_, ?_, ?_, ?_⟩
  · intro emd runInner solveLin xs xt mu eta numInnerItermax stopInnerThr stopThr
    unfold joint_OT_mapping_linear_nobias bcdRun
    rw [h0]
    rfl
  · intro emd runInner solveLin xs xt mu eta numInnerItermax stopInnerThr stopThr
    unfold joint_OT_mapping_linear_bias bcdRun
    rw [h0]
    rfl
  · intro emd runInner solveLin kern xs xt mu eta kerneltype sigma
      numInnerItermax stopInnerThr stopThr
    unfold joint_OT_mapping_kernel_nobias bcdRun
    rw [h0]
    rfl
  · intro emd runInner solveLin kern xs xt mu eta kerneltype sigma
      numInnerItermax stopInnerThr stopThr
    unfold joint_OT_mapping_kernel_bias bcdRun
    rw [h0]
    rfl

/-- C5 witness: the linear no-bias conjunct at numItermax = 0 with concrete
collaborators. -/
theorem C5_witness :
    joint_OT_mapping_linear_nobias wEmd1 wRun1 wLin1 (wZ 1 1) (wZ 1 1) 1 (1e-3)
        0 10 (1e-6) (1e-5) false
      = JointResult.plain (wEmd1 (unif 1) (unif 1) (jointCost (wZ 1 1) (wZ 1 1)))
          (jointLin_solve_L_nobias wLin1 (wZ 1 1) (wZ 1 1) (1e-3)
            (wEmd1 (unif 1) (unif 1) (jointCost (wZ 1 1) (wZ 1 1)))) :=
  (C5_nonpos_budget_one_shot 1 1 1 0 (by norm_num)).1 wEmd1 wRun1 wLin1
    (wZ 1 1) (wZ 1 1) 1 (1e-3) 10 (1e-6) (1e-5)

/-- C8: the relative-loss stopping test of the joint estimators' BCD loop.
After any executed iteration the loop flag is cleared exactly when
it+1 ≥ numItermax or |v_new − v_prev| / |v_prev| < stopThr — with no side
condition on v_prev being nonzero; and at v_prev = 0 the decision is the very
same division formula with 0 substituted, i.e. no zero-denominator substitution
is applied (real division is total with x / 0 = 0, standing for the unguarded
float division of the source).  `bcdStep` is the loop body shared by
`joint_OT_mapping_linear_*` and `joint_OT_mapping_kernel_*`. -/
theorem C8_stop_test_unguarded (ns nt dp d : ℕ) :
    (∀ (runInner : InnerSolverCall ns nt → Mat ns nt)
        (solve_L : Mat ns nt → Mat dp d) (lossF : Mat dp d → Mat ns nt → ℝ)
        (FX : Mat ns dp) (xt : Mat nt d) (M : Mat ns nt) (mu : ℝ)
        (numInnerItermax : ℕ) (stopInnerThr : ℝ) (numItermax : ℤ)
        (stopThr : ℝ) (s : BCDState ns nt dp d), s.loop = true →
      ((bcdStep runInner solve_L lossF FX xt M mu numInnerItermax stopInnerThr
          numItermax stopThr s).loop = false
        ↔ (numItermax ≤ ((s.it + 1 : ℕ) : ℤ)
            ∨ |lossF (solve_L (runInner (jointSolveGCall FX xt M mu
                    numInnerItermax stopInnerThr s.L s.G)))
                  (runInner (jointSolveGCall FX xt M mu numInnerItermax
                    stopInnerThr s.L s.G))
                - s.vcur| / |s.vcur| < stopThr)))
    ∧ (∀ (numItermax : ℤ) (it : ℕ) (stopThr vcur : ℝ),
        bcdStopDecision numItermax it stopThr 0 vcur
          = (decide (numItermax ≤ (it : ℤ))
              || decide (|vcur - 0| / |0| < stopThr))) := by
  constructor
  · intro runInner solve_L lossF FX xt M mu numInnerItermax stopInnerThr
      numItermax stopThr s h
    unfold bcdStep
    rw [if_pos h]
    show (!(bcdStopDecision numItermax (s.it + 1) stopThr s.vcur _)) = false ↔ _
    rw [Bool.not_eq_false']
    unfold bcdStopDecision
    rw [Bool.or_eq_true]
    simp only [decide_eq_true_eq]
  · intro numItermax it stopThr vcur
    rfl

/-- C8 witness: the stop-test characterization at a concrete state with the
loop flag set and previous loss exactly zero. -/
theorem C8_witness :
    ((bcdStep wRun1 (fun _ => wZ 1 1) (fun _ _ => (0 : ℝ)) (wO 1 1) (wZ 1 1)
        (wZ 1 1) 1 10 (1e-6) 5 (1e-5) wBCD1).loop = false
      ↔ ((5 : ℤ) ≤ ((1 : ℕ) : ℤ) ∨ |(0 : ℝ) - 0| / |0| < (1e-5 : ℝ))) :=
  (C8_stop_test_unguarded 1 1 1 1).1 wRun1 (fun _ => wZ 1 1)
    (fun _ _ => (0 : ℝ)) (wO 1 1) (wZ 1 1) (wZ 1 1) 1 10 (1e-6) 5 (1e-5)
    wBCD1 rfl
